import Mathlib

/-!
Verification of the dry-run migration executor (src/index.js).

The file embeds, as pure Lean functions, the interception and
query-classification layer of the executor created by `createDryRun`:
the classifier `shouldPassThrough` (with the `METADATA_QUERIES` regex),
the patched `sequelize.query` installed by `setupQueryPatch`, the
transcript formatter `formatQueries`, the synthetic bookkeeping
statements, the original-method snapshot taken at construction, the
`restore` teardown, and the two orchestration entry points `up` and
`down`.  Function identities (for the restore-by-reference properties)
are modelled by the inductive type `FnRef`, where `FnRef.bound f`
models the fresh function object produced by `f.bind(...)`.
The external migration runner is modelled at its boundary: the pending
and executed migration lists are inputs, and each migration module is a
`MigrationSpec` recording the calls its up/down procedure makes to the
(patched) execution entry point, together with possible thrown errors.
-/

deriving instance DecidableEq for Except

namespace SequelizeDryRun

/-- Sequelize query types (the values of `sequelize.constructor.QueryTypes`). -/
inductive QueryType where
  | select
  | insert
  | update
  | delete
  | upsert
  | bulkupdate
  | bulkdelete
  | version
  | showtables
  | showindexes
  | describe
  | raw
  | foreignkeys
  | showconstraints
deriving DecidableEq, Repr

/-- A payload handed to `sequelize.query`: raw SQL text, or a pre-built
non-string query object (modelled opaquely by an id). -/
inductive SqlPayload where
  | str (s : String)
  | obj (id : Nat)
deriving DecidableEq, Repr

/-- One call to the (patched) `sequelize.query`, with the optional
`options.type` field. -/
structure QueryCall where
  sql : SqlPayload
  type : Option QueryType
deriving DecidableEq, Repr

/-- JS `String.prototype.toLowerCase` (ASCII range, which is all the
classifier's keywords need): lowercase every character. -/
def strLower (s : String) : String := String.mk (s.data.map Char.toLower)

/-- JS `String.prototype.toUpperCase` (ASCII range), used on the
direction label in `formatQueries`. -/
def strUpper (s : String) : String := String.mk (s.data.map Char.toUpper)

/-- `pat` is a prefix of the second list. -/
def isPrefixList : List Char → List Char → Bool
  | [], _ => true
  | _ :: _, [] => false
  | a :: as, b :: bs => a == b && isPrefixList as bs

/-- JS `String.prototype.startsWith`. -/
def strStartsWith (s pre : String) : Bool := isPrefixList pre.data s.data

/-- `pat` occurs somewhere in the list. -/
def hasSubstrList (pat : List Char) : List Char → Bool
  | [] => isPrefixList pat []
  | c :: rest => isPrefixList pat (c :: rest) || hasSubstrList pat rest

/-- JS `String.prototype.includes`: `pat` occurs as a substring of `s`. -/
def containsSubstr (s pat : String) : Bool := hasSubstrList pat.data s.data

/-- The test of the regex `METADATA_QUERIES =
/^(pragma|show|describe|select)|information_schema/i` (src/index.js line 4),
applied — as in line 47 — to the already lowercased statement text: it
matches when the text starts with one of the four introspection keywords,
or contains `information_schema` anywhere. -/
def metadataQueriesTest (lower : String) : Bool :=
  strStartsWith lower "pragma" || strStartsWith lower "show" ||
  strStartsWith lower "describe" || strStartsWith lower "select" ||
  containsSubstr lower "information_schema"

/-- `shouldPassThrough` (src/index.js lines 43-49). -/
def shouldPassThrough (tableName sql : String) : Bool :=
  let lower := strLower sql
  (strStartsWith lower "select" && containsSubstr lower (strLower tableName)) ||
  metadataQueriesTest lower

/-- What the patched `sequelize.query` returns (src/index.js lines 74-96):
either the result of forwarding the call to `originals.query` (the real
database), the empty-effect result `[0, 0]`, or the empty result set
`[[], \x7b\x7d]`. -/
inductive QueryOutcome where
  | forwarded
  | emptyEffect
  | emptyResultSet
deriving DecidableEq, Repr

/-- The patched `sequelize.query` installed by `setupQueryPatch`
(src/index.js lines 74-96), acting on the capture buffer: returns the new
buffer and the outcome of the call. -/
def patchedQuery (tableName : String) (captured : List String) (c : QueryCall) :
    List String × QueryOutcome :=
  match c.sql with
  | .obj _ => (captured, .forwarded)
  | .str s =>
    if shouldPassThrough tableName s then (captured, .forwarded)
    else
      let captured2 := captured ++ [s]
      match c.type with
      | some .select => (captured2, .forwarded)
      | some .insert => (captured2, .emptyEffect)
      | some .update => (captured2, .emptyEffect)
      | some .delete => (captured2, .emptyEffect)
      | _ => (captured2, .emptyResultSet)

/-- Running a sequence of calls against the patched `sequelize.query`,
threading the capture buffer. -/
def runCalls (tableName : String) (captured : List String) (calls : List QueryCall) :
    List String :=
  calls.foldl (fun acc c => (patchedQuery tableName acc c).1) captured

/-- JS `Array.prototype.join("\n")` as used in `formatQueries`. -/
def joinLines : List String → String
  | [] => ""
  | [x] => x
  | x :: y :: rest => x ++ "\n" ++ joinLines (y :: rest)

/-- The 70-character `=` banner line `"=".repeat(70)`. -/
def eqBanner : String := String.mk (List.replicate 70 '=')

/-- `formatQueries` (src/index.js lines 52-65). -/
def formatQueries (name direction : String) (queries : List String) : String :=
  let header : List String :=
    ["\n" ++ eqBanner, "📄 Migration " ++ strUpper direction ++ ": " ++ name, eqBanner]
  if queries.isEmpty then
    joinLines (header ++ ["(No SQL generated)\n"])
  else
    joinLines (header ++ queries.enum.map (fun p => toString (p.1 + 1) ++ ". " ++ p.2 ++ "\n"))

/-- The synthetic bookkeeping statement appended by `up`
(src/index.js lines 154-156). -/
def syntheticInsert (tableName name : String) : String :=
  "INSERT INTO `" ++ tableName ++ "` (`name`) VALUES (\x27" ++ name ++ "\x27);"

/-- The synthetic bookkeeping statement appended by `down`
(src/index.js lines 226-228). -/
def syntheticDelete (tableName name : String) : String :=
  "DELETE FROM `" ++ tableName ++ "` WHERE `name` = \x27" ++ name ++ "\x27;"

/-- Identity of a JS function object, for the restore-by-reference
properties.  `orig id` is a pre-existing function object; `bound f` is
the fresh object returned by `f.bind(...)` (so `bound f` is never the
same reference as `f`); `interceptor`, `noopLog` and `noopUnlog` are the
closures installed by `setupQueryPatch` / `setupStoragePatch`. -/
inductive FnRef where
  | orig (id : Nat)
  | bound (f : FnRef)
  | interceptor
  | noopLog
  | noopUnlog
deriving DecidableEq, Repr

/-- The mutable state shared by the executor: the `sequelize.query`
property, the two `SequelizeStorage.prototype` hooks, and the
`capturedQueries` buffer (src/index.js line 40), which lives in the
`createDryRun` closure and persists across runs. -/
structure RunState where
  query : FnRef
  logMigration : FnRef
  unlogMigration : FnRef
  captured : List String
deriving DecidableEq, Repr

/-- The `originals` snapshot taken at construction (src/index.js
lines 34-38).  Note `originals.query` is `sequelize.query.bind(sequelize)`,
a fresh function object, while the two storage hooks are stored by
reference. -/
structure Originals where
  query : FnRef
  logMigration : FnRef
  unlogMigration : FnRef
deriving DecidableEq, Repr

/-- The snapshot part of `createDryRun` (src/index.js lines 34-38),
taken against the state at construction time. -/
def createDryRun (g : RunState) : Originals :=
  { query := FnRef.bound g.query
    logMigration := g.logMigration
    unlogMigration := g.unlogMigration }

/-- `setupStoragePatch` followed by `setupQueryPatch`
(src/index.js lines 68-71 and 74-96): swaps in the interceptor and the
two no-op hooks; the capture buffer is untouched. -/
def setupPatches (g : RunState) : RunState :=
  { g with
    query := FnRef.interceptor
    logMigration := FnRef.noopLog
    unlogMigration := FnRef.noopUnlog }

/-- `restore` (src/index.js lines 99-103): unconditionally reinstates the
three snapshotted references. -/
def restore (o : Originals) (g : RunState) : RunState :=
  { g with
    query := o.query
    logMigration := o.logMigration
    unlogMigration := o.unlogMigration }

/-- A migration module at the external-runner boundary: its name, whether
`require`-ing it throws, the calls its `up`/`down` procedure makes to the
(patched) execution entry point, and whether the procedure throws after
making those calls. -/
structure MigrationSpec where
  name : String
  loadFails : Option String
  upCalls : List QueryCall
  upThrows : Option String
  downCalls : List QueryCall
  downThrows : Option String
deriving DecidableEq, Repr

/-- One migration result, as assembled by `up`/`down`
(src/index.js lines 161-166 and 233-238). -/
structure MigrationResult where
  name : String
  direction : String
  sql : List String
  output : String
deriving DecidableEq, Repr

/-- The body of `up`'s per-migration loop (src/index.js lines 142-170)
for one migration: snapshot the buffer length, load the module, invoke
its up-procedure against the patched query, append the synthetic
insert-record statement, and slice the buffer from the snapshot.  A load
or invocation error is returned as `Except.error` with the buffer as it
stood when the error was thrown. -/
def runUpMigration (tableName : String) (captured : List String) (m : MigrationSpec) :
    List String × Except String MigrationResult :=
  let startIdx := captured.length
  match m.loadFails with
  | some e => (captured, Except.error e)
  | none =>
    let c1 := runCalls tableName captured m.upCalls
    match m.upThrows with
    | some e => (c1, Except.error e)
    | none =>
      let c2 := c1 ++ [syntheticInsert tableName m.name]
      let queries := c2.drop startIdx
      (c2, Except.ok
        { name := m.name
          direction := "up"
          sql := queries
          output := formatQueries m.name "up" queries })

/-- `up`'s loop over the pending migrations (src/index.js lines 142-170):
an error aborts the loop and discards the results accumulated so far
(the thrown exception propagates out of `up`). -/
def upLoop (tableName : String) (captured : List String) :
    List MigrationSpec → List String × Except String (List MigrationResult)
  | [] => (captured, Except.ok [])
  | m :: rest =>
    let step := runUpMigration tableName captured m
    match step.2 with
    | Except.error e => (step.1, Except.error e)
    | Except.ok r =>
      let next := upLoop tableName step.1 rest
      match next.2 with
      | Except.error e => (next.1, Except.error e)
      | Except.ok rs => (next.1, Except.ok (r :: rs))

/-- `up` (src/index.js lines 111-178): install the patches, ask the
runner for the pending set (given here as input), return early when it is
empty, otherwise run the loop; in every case the `finally` block runs
`restore` before the call returns or rethrows. -/
def up (tableName : String) (o : Originals) (pending : List MigrationSpec)
    (g : RunState) : RunState × Except String (List MigrationResult) :=
  let g1 := setupPatches g
  let body :=
    if pending.isEmpty then (g1.captured, Except.ok ([] : List MigrationResult))
    else upLoop tableName g1.captured pending
  (restore o { g1 with captured := body.1 }, body.2)

/-- The body of `down` for the selected migration (src/index.js
lines 215-238): same as `runUpMigration` but with the down-procedure and
the synthetic delete-record statement. -/
def runDownMigration (tableName : String) (captured : List String) (m : MigrationSpec) :
    List String × Except String MigrationResult :=
  let startIdx := captured.length
  match m.loadFails with
  | some e => (captured, Except.error e)
  | none =>
    let c1 := runCalls tableName captured m.downCalls
    match m.downThrows with
    | some e => (c1, Except.error e)
    | none =>
      let c2 := c1 ++ [syntheticDelete tableName m.name]
      let queries := c2.drop startIdx
      (c2, Except.ok
        { name := m.name
          direction := "down"
          sql := queries
          output := formatQueries m.name "down" queries })

/-- `down` (src/index.js lines 186-249): install the patches, ask the
runner for the executed set (given here as input), return `none` when it
is empty, otherwise process only the last executed migration; in every
case the `finally` block runs `restore`. -/
def down (tableName : String) (o : Originals) (executed : List MigrationSpec)
    (g : RunState) : RunState × Except String (Option MigrationResult) :=
  let g1 := setupPatches g
  let body :=
    match executed.getLast? with
    | none => (g1.captured, Except.ok (none : Option MigrationResult))
    | some m =>
      let step := runDownMigration tableName g1.captured m
      match step.2 with
      | Except.error e => (step.1, Except.error e)
      | Except.ok r => (step.1, Except.ok (some r))
  (restore o { g1 with captured := body.1 }, body.2)

/-! ## Derived descriptions of the code's behaviour -/

/-- The statements one call appends to the capture buffer: nothing for a
non-string payload or a pass-through statement, the statement text
otherwise. -/
def capturedDelta (tableName : String) (c : QueryCall) : List String :=
  match c.sql with
  | .obj _ => []
  | .str s => if shouldPassThrough tableName s then [] else [s]

/-- The result the patched query returns for a captured string statement,
by query type: forwarded to the real database for `select`, the
empty-effect result for `insert`/`update`/`delete`, the empty result set
otherwise. -/
def capturedOutcome (ty : Option QueryType) : QueryOutcome :=
  match ty with
  | some QueryType.select => QueryOutcome.forwarded
  | some QueryType.insert => QueryOutcome.emptyEffect
  | some QueryType.update => QueryOutcome.emptyEffect
  | some QueryType.delete => QueryOutcome.emptyEffect
  | _ => QueryOutcome.emptyResultSet

/-- The statements a migration's up-run adds to the buffer
(nothing survives a load failure; a thrown up-procedure leaves the
statements captured before the throw; a successful run additionally
appends the synthetic insert-record statement). -/
def upNewQueries (tableName : String) (m : MigrationSpec) : List String :=
  match m.loadFails with
  | some _ => []
  | none =>
    match m.upThrows with
    | some _ => runCalls tableName [] m.upCalls
    | none => runCalls tableName [] m.upCalls ++ [syntheticInsert tableName m.name]

/-- The migration result `up` assembles for one successfully processed
migration. -/
def mkUpResult (tableName : String) (m : MigrationSpec) : MigrationResult :=
  let queries := runCalls tableName [] m.upCalls ++ [syntheticInsert tableName m.name]
  { name := m.name
    direction := "up"
    sql := queries
    output := formatQueries m.name "up" queries }

/-- The outcome of processing one migration in `up`'s loop. -/
def upOutcome (tableName : String) (m : MigrationSpec) :
    Except String MigrationResult :=
  match m.loadFails with
  | some e => Except.error e
  | none =>
    match m.upThrows with
    | some e => Except.error e
    | none => Except.ok (mkUpResult tableName m)

/-- The statements a migration's down-run adds to the buffer. -/
def downNewQueries (tableName : String) (m : MigrationSpec) : List String :=
  match m.loadFails with
  | some _ => []
  | none =>
    match m.downThrows with
    | some _ => runCalls tableName [] m.downCalls
    | none => runCalls tableName [] m.downCalls ++ [syntheticDelete tableName m.name]

/-- The migration result `down` assembles for the rolled-back migration. -/
def mkDownResult (tableName : String) (m : MigrationSpec) : MigrationResult :=
  let queries := runCalls tableName [] m.downCalls ++ [syntheticDelete tableName m.name]
  { name := m.name
    direction := "down"
    sql := queries
    output := formatQueries m.name "down" queries }

/-- The outcome of processing the selected migration in `down`. -/
def downOutcome (tableName : String) (m : MigrationSpec) :
    Except String MigrationResult :=
  match m.loadFails with
  | some e => Except.error e
  | none =>
    match m.downThrows with
    | some e => Except.error e
    | none => Except.ok (mkDownResult tableName m)

/-! ## Definitions following the specification's words (for refinement
claims about the classifier and the captured-call result) -/

/-- The spec's classifier, first clause: the statement begins with one of
the read-only introspection keywords. -/
def specKeywordsPassThrough (lower : String) : Bool :=
  strStartsWith lower "pragma" || strStartsWith lower "show" ||
  strStartsWith lower "describe" || strStartsWith lower "select"

/-- The classifier exactly as the claim states it: pass through on a
leading introspection keyword, or on a lowercase `select` mentioning the
lowercased tracking-table name; capture in every other case. -/
def specPassThroughClaimed (tableName sql : String) : Bool :=
  specKeywordsPassThrough (strLower sql) ||
  (strStartsWith (strLower sql) "select" &&
    containsSubstr (strLower sql) (strLower tableName))

/-- The claim's classifier amended with the one further pass-through case
the code has: a lowercase form containing `information_schema` anywhere. -/
def specPassThroughAmended (tableName sql : String) : Bool :=
  specPassThroughClaimed tableName sql ||
  containsSubstr (strLower sql) "information_schema"

/-! ## Concrete fixtures -/

/-- A pristine pre-construction state: three distinct original function
objects and an empty buffer. -/
def g0ex : RunState :=
  { query := FnRef.orig 0
    logMigration := FnRef.orig 1
    unlogMigration := FnRef.orig 2
    captured := [] }

/-- The `CREATE TABLE` statement issued by the example migration. -/
def exampleCreateTable : String :=
  "CREATE TABLE `users` (`id` INTEGER PRIMARY KEY);"

/-- The spec's example migration `0001-create-users`: its up-procedure
issues one `CREATE TABLE` statement. -/
def exampleMigration : MigrationSpec :=
  { name := "0001-create-users"
    loadFails := none
    upCalls := [{ sql := SqlPayload.str exampleCreateTable, type := none }]
    upThrows := none
    downCalls := [{ sql := SqlPayload.str "DROP TABLE `users`;", type := none }]
    downThrows := none }

/-- A migration whose up- and down-procedures throw. -/
def failMig : MigrationSpec :=
  { name := "0002-boom"
    loadFails := none
    upCalls := []
    upThrows := some "boom"
    downCalls := []
    downThrows := some "boom" }

/-- An older executed migration, for the rollback-selection fixture. -/
def exampleDownA : MigrationSpec :=
  { name := "0001-a"
    loadFails := none
    upCalls := []
    upThrows := none
    downCalls := [{ sql := SqlPayload.str "DROP TABLE `a`;", type := none }]
    downThrows := none }

/-- The most recently executed migration, for the rollback-selection
fixture. -/
def exampleDownB : MigrationSpec :=
  { name := "0002-b"
    loadFails := none
    upCalls := []
    upThrows := none
    downCalls := [{ sql := SqlPayload.str "DROP TABLE `b`;", type := none }]
    downThrows := none }

/-! ## Helper lemmas -/

theorem patchedQuery_fst (tableName : String) (captured : List String) (c : QueryCall) :
    (patchedQuery tableName captured c).1 = captured ++ capturedDelta tableName c := by
  rcases c with ⟨sql, ty⟩
  cases sql with
  | obj id => simp [patchedQuery, capturedDelta]
  | str s =>
    cases hb : shouldPassThrough tableName s with
    | false =>
      rcases ty with _ | ty
      · simp [patchedQuery, capturedDelta, hb]
      · cases ty <;> simp [patchedQuery, capturedDelta, hb]
    | true => simp [patchedQuery, capturedDelta, hb]

theorem runCalls_eq (tableName : String) (captured : List String)
    (calls : List QueryCall) :
    runCalls tableName captured calls = captured ++ runCalls tableName [] calls := by
  induction calls generalizing captured with
  | nil => simp [runCalls]
  | cons c rest ih =>
    show runCalls tableName (patchedQuery tableName captured c).1 rest
      = captured ++ runCalls tableName (patchedQuery tableName [] c).1 rest
    rw [ih, ih ((patchedQuery tableName [] c).1), patchedQuery_fst, patchedQuery_fst]
    simp [List.append_assoc]

theorem runUpMigration_eq (tableName : String) (captured : List String)
    (m : MigrationSpec) :
    runUpMigration tableName captured m
      = (captured ++ upNewQueries tableName m, upOutcome tableName m) := by
  simp only [runUpMigration, upNewQueries, upOutcome, mkUpResult]
  cases hl : m.loadFails with
  | some e => simp
  | none =>
    cases ht : m.upThrows with
    | some e => rw [runCalls_eq tableName captured]
    | none =>
      rw [runCalls_eq tableName captured, List.append_assoc]
      simp [List.drop_left]

theorem runDownMigration_eq (tableName : String) (captured : List String)
    (m : MigrationSpec) :
    runDownMigration tableName captured m
      = (captured ++ downNewQueries tableName m, downOutcome tableName m) := by
  simp only [runDownMigration, downNewQueries, downOutcome, mkDownResult]
  cases hl : m.loadFails with
  | some e => simp
  | none =>
    cases ht : m.downThrows with
    | some e => rw [runCalls_eq tableName captured]
    | none =>
      rw [runCalls_eq tableName captured, List.append_assoc]
      simp [List.drop_left]

theorem upLoop_eq (tableName : String) (captured : List String)
    (pending : List MigrationSpec) :
    upLoop tableName captured pending
      = (captured ++ (upLoop tableName [] pending).1, (upLoop tableName [] pending).2) := by
  induction pending generalizing captured with
  | nil => simp [upLoop]
  | cons m rest ih =>
    simp only [upLoop, runUpMigration_eq]
    cases ho : upOutcome tableName m with
    | error e => simp [List.append_assoc]
    | ok r =>
      simp only
      rw [ih (captured ++ upNewQueries tableName m), ih ([] ++ upNewQueries tableName m)]
      cases h2 : (upLoop tableName [] rest).2 with
      | error e => simp [List.append_assoc]
      | ok rs => simp [List.append_assoc]

theorem upOutcome_ok (tableName : String) (m : MigrationSpec) (r : MigrationResult)
    (h : upOutcome tableName m = Except.ok r) : r = mkUpResult tableName m := by
  unfold upOutcome at h
  cases hl : m.loadFails with
  | some e => rw [hl] at h; simp at h
  | none =>
    rw [hl] at h
    cases ht : m.upThrows with
    | some e => rw [ht] at h; simp at h
    | none =>
      rw [ht] at h
      injection h with h
      exact h.symm

theorem downOutcome_ok (tableName : String) (m : MigrationSpec) (r : MigrationResult)
    (h : downOutcome tableName m = Except.ok r) : r = mkDownResult tableName m := by
  unfold downOutcome at h
  cases hl : m.loadFails with
  | some e => rw [hl] at h; simp at h
  | none =>
    rw [hl] at h
    cases ht : m.downThrows with
    | some e => rw [ht] at h; simp at h
    | none =>
      rw [ht] at h
      injection h with h
      exact h.symm

theorem upLoop_ok_of_success (tableName : String) (captured : List String)
    (pending : List MigrationSpec)
    (h : ∀ m ∈ pending, m.loadFails = none ∧ m.upThrows = none) :
    (upLoop tableName captured pending).2
      = Except.ok (pending.map (mkUpResult tableName)) := by
  induction pending generalizing captured with
  | nil => simp [upLoop]
  | cons m rest ih =>
    have hm := h m (List.mem_cons_self m rest)
    have hrest : ∀ m' ∈ rest, m'.loadFails = none ∧ m'.upThrows = none :=
      fun m' hm' => h m' (List.mem_cons_of_mem m hm')
    have ho : upOutcome tableName m = Except.ok (mkUpResult tableName m) := by
      unfold upOutcome
      rw [hm.1, hm.2]
    simp only [upLoop, runUpMigration_eq, ho]
    rw [ih (captured ++ upNewQueries tableName m) hrest]
    simp

theorem upLoop_output_of_ok (tableName : String) (captured : List String)
    (pending : List MigrationSpec) (rs : List MigrationResult)
    (h : (upLoop tableName captured pending).2 = Except.ok rs) :
    ∀ r ∈ rs, r.output = formatQueries r.name r.direction r.sql := by
  induction pending generalizing captured rs with
  | nil =>
    simp [upLoop] at h
    subst h
    simp
  | cons m rest ih =>
    simp only [upLoop, runUpMigration_eq] at h
    cases ho : upOutcome tableName m with
    | error e => rw [ho] at h; simp at h
    | ok r0 =>
      rw [ho] at h
      cases h2 : (upLoop tableName (captured ++ upNewQueries tableName m) rest).2 with
      | error e => rw [h2] at h; simp at h
      | ok rs' =>
        rw [h2] at h
        simp at h
        subst h
        intro r hr
        rcases List.mem_cons.mp hr with hr | hr
        · subst hr
          rw [upOutcome_ok tableName m _ ho]
          rfl
        · exact ih (captured ++ upNewQueries tableName m) rs' h2 r hr

theorem string_join_cons (a : String) (l : List String) :
    String.join (a :: l) = a ++ String.join l := by
  apply String.ext
  simp [String.join_eq, String.data_append]

theorem joinLines_cons_join (x : String) (rest : List String) :
    joinLines (x :: rest) = x ++ String.join (rest.map (fun s => "\n" ++ s)) := by
  induction rest generalizing x with
  | nil =>
    show x = x ++ String.join []
    simp [String.join]
  | cons y t ih =>
    show x ++ "\n" ++ joinLines (y :: t) = _
    rw [ih y]
    simp [string_join_cons, String.append_assoc]

/-- The banner-and-header prefix every `formatQueries` rendering starts
with: the leading newline, the `=` banner, the labelled migration line,
and the closing banner. -/
def formatHeaderText (name direction : String) : String :=
  "\n" ++ eqBanner ++ "\n" ++ "📄 Migration " ++ strUpper direction ++ ": " ++ name
    ++ "\n" ++ eqBanner

theorem joinLines_format_header (name direction : String) (body : List String) :
    joinLines (["\n" ++ eqBanner,
        "📄 Migration " ++ strUpper direction ++ ": " ++ name, eqBanner] ++ body)
      = formatHeaderText name direction
        ++ String.join (body.map (fun s => "\n" ++ s)) := by
  show joinLines (("\n" ++ eqBanner)
      :: ("📄 Migration " ++ strUpper direction ++ ": " ++ name) :: eqBanner :: body) = _
  rw [joinLines_cons_join]
  simp only [List.map_cons, string_join_cons]
  apply String.ext
  simp [String.data_append, List.append_assoc, formatHeaderText]

theorem up_eq (tableName : String) (o : Originals) (pending : List MigrationSpec)
    (g : RunState) :
    up tableName o pending g
      = (restore o { setupPatches g with
            captured := g.captured ++ (upLoop tableName [] pending).1 },
         (upLoop tableName [] pending).2) := by
  cases pending with
  | nil => simp [up, upLoop, setupPatches, restore]
  | cons m rest =>
    simp only [up, List.isEmpty_cons, Bool.false_eq_true, if_false,
      upLoop_eq tableName (setupPatches g).captured]
    rfl

theorem down_eq (tableName : String) (o : Originals) (executed : List MigrationSpec)
    (g : RunState) :
    down tableName o executed g
      = (restore o { setupPatches g with
            captured :=
              match executed.getLast? with
              | none => g.captured
              | some m => g.captured ++ downNewQueries tableName m },
         match executed.getLast? with
         | none => Except.ok none
         | some m =>
           match downOutcome tableName m with
           | Except.error e => Except.error e
           | Except.ok r => Except.ok (some r)) := by
  cases hge : executed.getLast? with
  | none => simp [down, hge, setupPatches, restore]
  | some m =>
    simp only [down, hge, runDownMigration_eq tableName (setupPatches g).captured]
    cases hdo : downOutcome tableName m with
    | error e => rfl
    | ok r => rfl

/-! ## Claim theorems -/

/-- Claim C1, counterexample: the statement `drop table users` is
classified as captured (it is pushed onto the capture buffer), yet when
the call's query type is `select` — a query type that is neither insert,
update nor delete — the patched entry point forwards the call to the
original `sequelize.query` (executing it against the real database)
instead of returning the empty result set the claim requires. -/
theorem captured_select_type_forwarded_cex :
    shouldPassThrough "SequelizeMeta" "drop table users" = false
    ∧ (patchedQuery "SequelizeMeta" []
        { sql := SqlPayload.str "drop table users", type := some QueryType.select }).1
        = ["drop table users"]
    ∧ (patchedQuery "SequelizeMeta" []
        { sql := SqlPayload.str "drop table users", type := some QueryType.select }).2
        = QueryOutcome.forwarded
    ∧ QueryOutcome.forwarded ≠ QueryOutcome.emptyResultSet := by
  refine ⟨by decide, by decide, by decide, by decide⟩

/-- Claim C1 (amended): for every string statement classified as
captured, the intercepted entry point appends the statement text to the
capture buffer and returns an empty-effect result when the call's query
type is insert, update or delete; when the query type is select it
forwards the call to the original execution function (so the statement is
both captured and executed); for every other query type it returns an
empty result set. -/
theorem captured_statement_buffer_and_result (tableName captured_sql : String)
    (captured : List String) (ty : Option QueryType)
    (h : shouldPassThrough tableName captured_sql = false) :
    patchedQuery tableName captured { sql := SqlPayload.str captured_sql, type := ty }
      = (captured ++ [captured_sql], capturedOutcome ty) := by
  simp only [patchedQuery, h]
  rcases ty with _ | ty
  · simp [capturedOutcome]
  · cases ty <;> simp [capturedOutcome]

/-- Witness for C1's amended theorem at a concrete captured statement. -/
theorem captured_statement_buffer_and_result_witness :
    patchedQuery "SequelizeMeta" []
        { sql := SqlPayload.str "create table users (id int)", type := none }
      = (["create table users (id int)"], QueryOutcome.emptyResultSet) :=
  captured_statement_buffer_and_result "SequelizeMeta" "create table users (id int)"
    [] none (by decide)

/-- Claim C2, counterexample: `delete from information_schema.tables`
does not begin with an introspection keyword and is not a select against
the tracking table, so the claim classifies it as captured; the code's
classifier passes it through, because the `METADATA_QUERIES` regex also
matches `information_schema` anywhere in the string. -/
theorem classifier_information_schema_cex :
    specPassThroughClaimed "SequelizeMeta" "delete from information_schema.tables" = false
    ∧ shouldPassThrough "SequelizeMeta" "delete from information_schema.tables" = true := by
  refine ⟨by decide, by decide⟩

/-- Claim C2 (amended): the classifier passes a string through exactly
when it begins with a read-only introspection keyword (pragma, show,
describe, select — regardless of the tracking-table name), or its
lowercase form is a select mentioning the lowercased tracking-table name,
or its lowercase form contains `information_schema` anywhere; it captures
the string in every other case. -/
theorem classifier_eq_amended_spec (tableName sql : String) :
    shouldPassThrough tableName sql = specPassThroughAmended tableName sql := by
  rw [Bool.eq_iff_iff]
  simp only [shouldPassThrough, specPassThroughAmended, specPassThroughClaimed,
    specKeywordsPassThrough, metadataQueriesTest, Bool.or_eq_true, Bool.and_eq_true]
  tauto

/-- Claim C7: `up` invoked with zero pending migrations returns an empty
result sequence, and `down` invoked with zero executed migrations returns
null (`none`) and produces no migration result. -/
theorem empty_pending_and_executed_results (tableName : String) (o : Originals)
    (g : RunState) :
    (up tableName o [] g).2 = Except.ok []
    ∧ (down tableName o [] g).2 = Except.ok none :=
  ⟨rfl, rfl⟩

/-- Claim C8: a non-string statement payload is always passed through to
the original execution function, unclassified, and nothing is appended to
the capture buffer. -/
theorem non_string_payload_passthrough (tableName : String) (captured : List String)
    (id : Nat) (ty : Option QueryType) :
    patchedQuery tableName captured { sql := SqlPayload.obj id, type := ty }
      = (captured, QueryOutcome.forwarded) :=
  rfl

/-- Claim C3, counterexample: on the very first run after construction
the execution entry point is NOT restored to its exact pre-run reference.
`createDryRun` snapshots `sequelize.query.bind(sequelize)` — a fresh
function object — so after `up` the handle holds that bound copy, which
is not reference-identical to the pre-run `sequelize.query`. -/
theorem restore_identity_first_run_cex :
    (up "SequelizeMeta" (createDryRun g0ex) [] g0ex).1.query ≠ g0ex.query := by
  decide

/-- Claim C3 (amended): after every invocation of `up` or `down`, on
every exit path, the storage hooks are restored to the exact references
snapshotted at construction (hence to their pre-construction
identities), while the execution entry point is restored to the bound
copy of the original query function made at construction — the same
fixed reference on every run, which equals the pre-run reference
whenever the pre-run reference is already that bound copy (all runs
after the first) but not on a first run from a pristine state; and any
migration exception propagates to the caller unmodified. -/
theorem restore_on_all_exit_paths (tableName : String) (g0 g : RunState)
    (pending executed : List MigrationSpec) :
    ((up tableName (createDryRun g0) pending g).1.query = FnRef.bound g0.query
      ∧ (up tableName (createDryRun g0) pending g).1.logMigration = g0.logMigration
      ∧ (up tableName (createDryRun g0) pending g).1.unlogMigration = g0.unlogMigration)
    ∧ ((down tableName (createDryRun g0) executed g).1.query = FnRef.bound g0.query
      ∧ (down tableName (createDryRun g0) executed g).1.logMigration = g0.logMigration
      ∧ (down tableName (createDryRun g0) executed g).1.unlogMigration = g0.unlogMigration)
    ∧ (g.query = (createDryRun g0).query →
        (up tableName (createDryRun g0) pending g).1.query = g.query)
    ∧ (∀ e, (upLoop tableName g.captured pending).2 = Except.error e →
        (up tableName (createDryRun g0) pending g).2 = Except.error e)
    ∧ (∀ e m, executed.getLast? = some m →
        (runDownMigration tableName g.captured m).2 = Except.error e →
        (down tableName (createDryRun g0) executed g).2 = Except.error e) := by
  refine ⟨⟨rfl, rfl, rfl⟩, ⟨rfl, rfl, rfl⟩, ?_, ?_, ?_⟩
  · intro h
    rw [h]
    rfl
  · intro e he
    rw [upLoop_eq tableName g.captured pending] at he
    simp only [up_eq]
    simpa using he
  · intro e m hm he
    rw [runDownMigration_eq tableName g.captured m] at he
    have he2 : downOutcome tableName m = Except.error e := by simpa using he
    simp only [down_eq, hm, he2]

/-- Witness for C3's amended theorem: a run whose migration throws has
the error propagated unmodified by `up` and by `down`, and a second-run
state (already holding the construction-time bound copy) has the entry
point restored to its exact pre-run reference. -/
theorem restore_on_all_exit_paths_witness :
    (up "SequelizeMeta" (createDryRun g0ex) [failMig] g0ex).2 = Except.error "boom"
    ∧ (down "SequelizeMeta" (createDryRun g0ex) [failMig] g0ex).2 = Except.error "boom"
    ∧ (up "SequelizeMeta" (createDryRun g0ex) []
        { g0ex with query := (createDryRun g0ex).query }).1.query
      = { g0ex with query := (createDryRun g0ex).query }.query :=
  ⟨(restore_on_all_exit_paths "SequelizeMeta" g0ex g0ex [failMig] [failMig]).2.2.2.1
      "boom" (by decide),
   (restore_on_all_exit_paths "SequelizeMeta" g0ex g0ex [failMig] [failMig]).2.2.2.2
      "boom" failMig (by decide) (by decide),
   (restore_on_all_exit_paths "SequelizeMeta" g0ex
      { g0ex with query := (createDryRun g0ex).query } [] []).2.2.1 (by decide)⟩

/-- Claim C4: a successful `up` returns one result per pending migration,
in order; each result's captured-statement list is the statements the
migration's calls produced followed by the synthetic insert-record
statement as its final element; in particular the example migration
`0001-create-users` with tracking table `SequelizeMeta` yields exactly
two captured statements — its `CREATE TABLE` text, then
INSERT INTO \x60SequelizeMeta\x60 (\x60name\x60) VALUES
(\x270001-create-users\x27); . -/
theorem up_final_statement_is_synthetic_insert (tableName : String) (o : Originals)
    (pending : List MigrationSpec) (g : RunState)
    (h : ∀ m ∈ pending, m.loadFails = none ∧ m.upThrows = none) :
    (up tableName o pending g).2 = Except.ok (pending.map (mkUpResult tableName))
    ∧ (∀ m : MigrationSpec,
        (mkUpResult tableName m).sql
          = runCalls tableName [] m.upCalls ++ [syntheticInsert tableName m.name]
        ∧ (mkUpResult tableName m).sql.getLast?
          = some (syntheticInsert tableName m.name))
    ∧ (mkUpResult "SequelizeMeta" exampleMigration).sql
        = [exampleCreateTable,
           "INSERT INTO `SequelizeMeta` (`name`) VALUES (\x270001-create-users\x27);"] := by
  refine ⟨?_, fun m => ⟨rfl, List.getLast?_concat _⟩, by decide⟩
  rw [up_eq]
  exact upLoop_ok_of_success tableName [] pending h

/-- Witness for C4 at the spec's concrete example. -/
theorem up_final_statement_is_synthetic_insert_witness :
    (up "SequelizeMeta" (createDryRun g0ex) [exampleMigration] g0ex).2
      = Except.ok [mkUpResult "SequelizeMeta" exampleMigration] := by
  have h := up_final_statement_is_synthetic_insert "SequelizeMeta" (createDryRun g0ex)
    [exampleMigration] g0ex (by decide)
  simpa using h.1

/-- Claim C5: `down` on a system with at least one executed migration
processes exactly the most recently executed one (the last element of the
executed sequence): when that migration loads and runs without throwing,
the call returns exactly one result, named after that migration, whose
statement list is that migration's own captured statements followed by
the synthetic delete-record statement as its final element. -/
theorem down_processes_last_executed (tableName : String) (o : Originals)
    (executed : List MigrationSpec) (g : RunState) (m : MigrationSpec)
    (hm : executed.getLast? = some m)
    (hl : m.loadFails = none) (hd : m.downThrows = none) :
    (down tableName o executed g).2 = Except.ok (some (mkDownResult tableName m))
    ∧ (mkDownResult tableName m).name = m.name
    ∧ (mkDownResult tableName m).direction = "down"
    ∧ (mkDownResult tableName m).sql
        = runCalls tableName [] m.downCalls ++ [syntheticDelete tableName m.name]
    ∧ (mkDownResult tableName m).sql.getLast?
        = some (syntheticDelete tableName m.name) := by
  have hdo : downOutcome tableName m = Except.ok (mkDownResult tableName m) := by
    unfold downOutcome
    rw [hl, hd]
  refine ⟨?_, rfl, rfl, rfl, List.getLast?_concat _⟩
  simp only [down_eq, hm, hdo]

/-- Witness for C5: with two executed migrations, `down` rolls back only
the second (most recent) one. -/
theorem down_processes_last_executed_witness :
    (down "SequelizeMeta" (createDryRun g0ex) [exampleDownA, exampleDownB] g0ex).2
      = Except.ok (some (mkDownResult "SequelizeMeta" exampleDownB)) :=
  (down_processes_last_executed "SequelizeMeta" (createDryRun g0ex)
    [exampleDownA, exampleDownB] g0ex exampleDownB
    (by decide) (by decide) (by decide)).1

/-- Claim C6, counterexample: the capture buffer is NOT reset per run —
after a run of `up` that captured statements, the buffer still holds them
at the start of the next invocation on the same executor. -/
theorem captured_buffer_not_reset_cex :
    (up "SequelizeMeta" (createDryRun g0ex) [exampleMigration] g0ex).1.captured ≠ [] := by
  decide

/-- Claim C6 (amended): the capture buffer persists across runs — each
run of `up` or `down` appends its statements to whatever the buffer
already holds — but the results of a run are independent of the buffer's
prior contents (each migration slices the buffer from a
per-migration snapshot of its length), so statements accumulated in one
invocation never appear in the results of the next. -/
theorem captured_buffer_prefix_invariance (tableName : String) (o : Originals)
    (pending executed : List MigrationSpec) (g : RunState) :
    (up tableName o pending g).1.captured
      = g.captured ++ (up tableName o pending { g with captured := [] }).1.captured
    ∧ (up tableName o pending g).2 = (up tableName o pending { g with captured := [] }).2
    ∧ (down tableName o executed g).1.captured
      = g.captured ++ (down tableName o executed { g with captured := [] }).1.captured
    ∧ (down tableName o executed g).2
      = (down tableName o executed { g with captured := [] }).2 := by
  refine ⟨?_, ?_, ?_, ?_⟩
  · simp [up_eq, restore, setupPatches]
  · simp [up_eq]
  · cases hge : executed.getLast? with
    | none => simp [down_eq, hge, restore, setupPatches]
    | some m => simp [down_eq, hge, restore, setupPatches]
  · cases hge : executed.getLast? with
    | none => simp [down_eq, hge]
    | some m => simp [down_eq, hge]

/-- Claim C9: the transcript formatter is a pure function whose entire
output is determined by name, direction and statement list: on an empty
list it renders the header followed by exactly the explicit
no-statements marker (so never a numbered entry), and on a non-empty
list it renders the header followed by exactly the entries numbered
1 through N in their original order — one entry per input statement, no
reordering, no deduplication. -/
theorem formatQueries_rendering (name direction : String) (qs : List String) :
    formatQueries name direction qs
      = formatHeaderText name direction
        ++ (if qs = [] then "\n(No SQL generated)\n"
            else String.join (qs.enum.map
              (fun p => "\n" ++ (toString (p.1 + 1) ++ ". " ++ p.2 ++ "\n")))) := by
  cases qs with
  | nil =>
    simp only [formatQueries, List.isEmpty_nil, if_true]
    rw [joinLines_format_header name direction ["(No SQL generated)\n"]]
    simp only [List.map_cons, List.map_nil, string_join_cons, String.join]
    rfl
  | cons q t =>
    have h1 : (q :: t).isEmpty = false := rfl
    have h2 : (q :: t) ≠ [] := by simp
    simp only [formatQueries, h1, Bool.false_eq_true, if_false, if_neg h2]
    rw [joinLines_format_header name direction ((q :: t).enum.map
      (fun p => toString (p.1 + 1) ++ ". " ++ p.2 ++ "\n"))]
    rw [List.map_map]
    rfl

/-- Claim C10: every migration result produced by `up` or `down` has its
rendered-output field equal to the transcript formatter applied to that
same result's name, direction and statement-list fields. -/
theorem result_output_consistent (tableName : String) (o : Originals)
    (pending executed : List MigrationSpec) (g : RunState) :
    (∀ rs, (up tableName o pending g).2 = Except.ok rs →
      ∀ r ∈ rs, r.output = formatQueries r.name r.direction r.sql)
    ∧ (∀ r, (down tableName o executed g).2 = Except.ok (some r) →
      r.output = formatQueries r.name r.direction r.sql) := by
  constructor
  · intro rs hrs
    rw [up_eq] at hrs
    exact upLoop_output_of_ok tableName [] pending rs (by simpa using hrs)
  · intro r hr
    have hr2 : (match executed.getLast? with
        | none => Except.ok (none : Option MigrationResult)
        | some m =>
          match downOutcome tableName m with
          | Except.error e => Except.error e
          | Except.ok r0 => Except.ok (some r0)) = Except.ok (some r) := by
      rw [down_eq] at hr
      exact hr
    cases hge : executed.getLast? with
    | none => rw [hge] at hr2; simp at hr2
    | some m =>
      rw [hge] at hr2
      simp only [] at hr2
      cases hdo : downOutcome tableName m with
      | error e => rw [hdo] at hr2; simp at hr2
      | ok r0 =>
        rw [hdo] at hr2
        simp at hr2
        subst hr2
        rw [downOutcome_ok tableName m _ hdo]
        rfl

/-- Witness for C10 at a concrete `up` run and a concrete `down` run. -/
theorem result_output_consistent_witness :
    (mkUpResult "SequelizeMeta" exampleMigration).output
      = formatQueries (mkUpResult "SequelizeMeta" exampleMigration).name
          (mkUpResult "SequelizeMeta" exampleMigration).direction
          (mkUpResult "SequelizeMeta" exampleMigration).sql :=
  (result_output_consistent "SequelizeMeta" (createDryRun g0ex) [exampleMigration] [] g0ex).1
    [mkUpResult "SequelizeMeta" exampleMigration]
    (by
      rw [up_eq]
      simpa using upLoop_ok_of_success "SequelizeMeta" [] [exampleMigration] (by decide))
    (mkUpResult "SequelizeMeta" exampleMigration)
    (List.mem_singleton_self _)

end SequelizeDryRun
